import Mathlib

/- Verification of the lidar distance-finder nodes of HT16_P2_EL2425:
   `centerline_mpc/src/dist_finder_lidar.py` and
   `centerline_pid/src/dist_finder_lidar.py`.

   Python floats are modelled by `PyFloat` (a finite rational, nan, or one of
   the two infinities); Python runtime exceptions by `PyErr`; fallible code by
   `Except PyErr`.  The globals `range_min` and `range_max` read by `getRange`
   are not assigned anywhere under `src/`; following the spec, which calls them
   configured constants, they are taken as rational parameters throughout. -/

/-- A Python float value: a finite rational, nan, or an infinity. -/
inductive PyFloat where
  | nan : PyFloat
  | inf : PyFloat
  | ninf : PyFloat
  | real : ℚ → PyFloat
deriving DecidableEq, Repr

/-- The Python runtime exceptions the modelled code can raise. -/
inductive PyErr where
  | indexError : PyErr
  | typeError : PyErr
  | valueError : PyErr
  | nameError : PyErr
deriving DecidableEq, Repr

/-- `true` exactly when the computation produced a value (no exception). -/
def isOkE {α : Type} : Except PyErr α → Bool
  | .ok _ => true
  | .error _ => false

instance {ε α : Type} [DecidableEq ε] [DecidableEq α] :
    DecidableEq (Except ε α) := fun x y =>
  match x, y with
  | .ok a, .ok b =>
      if h : a = b then .isTrue (by rw [h])
      else .isFalse (by intro hc; injection hc; contradiction)
  | .error a, .error b =>
      if h : a = b then .isTrue (by rw [h])
      else .isFalse (by intro hc; injection hc; contradiction)
  | .ok _, .error _ => .isFalse (by intro hc; exact Except.noConfusion hc)
  | .error _, .ok _ => .isFalse (by intro hc; exact Except.noConfusion hc)

namespace PyFloat

/-- IEEE `<` on Python floats: any comparison with nan is false. -/
def lt : PyFloat → PyFloat → Bool
  | nan, _ => false
  | _, nan => false
  | _, ninf => false
  | ninf, _ => true
  | inf, _ => false
  | _, inf => true
  | real a, real b => decide (a < b)

/-- IEEE `==` on Python floats: nan compares unequal to everything. -/
def beq : PyFloat → PyFloat → Bool
  | inf, inf => true
  | ninf, ninf => true
  | real a, real b => decide (a = b)
  | _, _ => false

/-- `math.isnan`. -/
def isNanB : PyFloat → Bool
  | nan => true
  | _ => false

/-- `math.isinf`: true for both infinities. -/
def isInfB : PyFloat → Bool
  | inf => true
  | ninf => true
  | _ => false

/-- IEEE addition (opposite infinities give nan). -/
def add : PyFloat → PyFloat → PyFloat
  | nan, _ => nan
  | _, nan => nan
  | inf, ninf => nan
  | ninf, inf => nan
  | inf, _ => inf
  | _, inf => inf
  | ninf, _ => ninf
  | _, ninf => ninf
  | real a, real b => real (a + b)

/-- IEEE subtraction (equal-signed infinities give nan). -/
def sub : PyFloat → PyFloat → PyFloat
  | nan, _ => nan
  | _, nan => nan
  | inf, inf => nan
  | ninf, ninf => nan
  | inf, _ => inf
  | ninf, _ => ninf
  | _, inf => ninf
  | _, ninf => inf
  | real a, real b => real (a - b)

/-- Division of a float by a rational constant.  Every divisor appearing in
    the code is a window size `2*n+1` or the literal `5`, hence nonzero, so
    Python's `ZeroDivisionError` cannot occur at the call sites. -/
def divQ : PyFloat → ℚ → PyFloat
  | nan, _ => nan
  | inf, c => if 0 < c then inf else ninf
  | ninf, c => if 0 < c then ninf else inf
  | real a, c => real (a / c)

end PyFloat

/-- Python list indexing `l[i]`: a negative index counts from the end of the
    list; an index outside `[-len, len)` raises `IndexError`. -/
def pyGetItem (l : List PyFloat) (i : ℤ) : Except PyErr PyFloat :=
  if h1 : 0 ≤ i then
    if h2 : i < (l.length : ℤ) then .ok (l.get ⟨i.toNat, by omega⟩)
    else .error .indexError
  else
    if h2 : 0 ≤ i + (l.length : ℤ) then
      .ok (l.get ⟨(i + (l.length : ℤ)).toNat, by omega⟩)
    else .error .indexError

/-- Helper for Python's `list.index`: the running position is `k`. -/
def pyListIndexAux (v : PyFloat) : List PyFloat → ℤ → Except PyErr ℤ
  | [], _ => .error .valueError
  | x :: rest, k => if x.beq v then .ok k else pyListIndexAux v rest (k + 1)

/-- Python's `list.index(v)`: position of the first element comparing `==` to
    `v`, or `ValueError` when there is none. -/
def pyListIndex (l : List PyFloat) (v : PyFloat) : Except PyErr ℤ :=
  pyListIndexAux v l 0

/-- Python's `range(a, b)` over integers. -/
def pyRange (a b : ℤ) : List ℤ :=
  (List.range (b - a).toNat).map (fun k => a + (k : ℤ))

namespace MPC

/-- The value transformation applied by the MPC variant's `getRange`
    (`centerline_mpc/src/dist_finder_lidar.py`, lines 27-39) to the raw beam
    value: nan or below `range_min` is replaced by `0`; then an infinite or
    above-`range_max` value is replaced by `50`. -/
def sanitize (range_min range_max : ℚ) (distance : PyFloat) : PyFloat :=
  let d1 : PyFloat :=
    if distance.isNanB || distance.lt (.real range_min) then .real 0 else distance
  if d1.isInfB || (PyFloat.real range_max).lt d1 then .real 50 else d1

/-- `getRange(data, beam_index)`: fetch the raw beam value, then sanitize. -/
def getRange (range_min range_max : ℚ) (ranges : List PyFloat) (beam_index : ℤ) :
    Except PyErr PyFloat :=
  match pyGetItem ranges beam_index with
  | .error e => .error e
  | .ok distance => .ok (sanitize range_min range_max distance)

/-- The accumulation loop of `getAverageRange` (lines 56-59): `dist` starts at
    `0` and each window index adds the sanitized range at that index. -/
def sumRanges (range_min range_max : ℚ) (ranges : List PyFloat) :
    List ℤ → PyFloat → Except PyErr PyFloat
  | [], dist => .ok dist
  | i :: rest, dist =>
      match getRange range_min range_max ranges i with
      | .error e => .error e
      | .ok r => sumRanges range_min range_max ranges rest (dist.add r)

/-- `getAverageRange(data, beam_index, num_aux_scans_halfed)` (lines 54-63):
    sum the sanitized ranges over the window
    `range(beam_index - n, beam_index + n + 1)` and divide by `2*n + 1`
    (the divisor is odd, hence nonzero). -/
def getAverageRange (range_min range_max : ℚ) (ranges : List PyFloat)
    (beam_index num_aux_scans_halfed : ℤ) : Except PyErr PyFloat :=
  match sumRanges range_min range_max ranges
      (pyRange (beam_index - num_aux_scans_halfed)
               (beam_index + num_aux_scans_halfed + 1)) (.real 0) with
  | .error e => .error e
  | .ok dist => .ok (dist.divQ ((2 * num_aux_scans_halfed + 1 : ℤ) : ℚ))

/-- `getLateralRanges(data)` (lines 76-98): averaged ranges at beam 180
    (right, 45 degrees) and beam 900 (left, 225 degrees), each over a
    window of 5 beams. -/
def getLateralRanges (range_min range_max : ℚ) (ranges : List PyFloat) :
    Except PyErr (List PyFloat) := do
  let range_right ← getAverageRange range_min range_max ranges 180 2
  let range_left ← getAverageRange range_min range_max ranges 900 2
  pure [range_right, range_left]

/-- The minimum-finding loop of `get_minimum_range` (lines 107-112):
    `min_range` starts at the sentinel `1000.0` and is updated on a strict
    `<` comparison (so nan elements never update it). -/
def minLoop (ranges_scan : List PyFloat) : PyFloat :=
  ranges_scan.foldl (fun min_range r => if r.lt min_range then r else min_range)
    (.real 1000)

/-- `get_minimum_range(data)` (lines 104-118): find the minimum via `minLoop`,
    look its index up with `list.index` (raising `ValueError` when the
    sentinel survived and is not in the list), then execute
    `ret_list.append(min_range, min_index)` - `list.append` takes exactly one
    argument, so this raises `TypeError`; the function also has no `return`
    statement. -/
def get_minimum_range (ranges_scan : List PyFloat) : Except PyErr Unit :=
  match pyListIndex ranges_scan (minLoop ranges_scan) with
  | .error e => .error e
  | .ok _min_index => .error .typeError

/-- The `pose` message published by the MPC variant. -/
structure pose where
  x : ℚ
  y : ℚ
  psi : ℚ
  v : ℚ
  ts : ℚ
deriving DecidableEq, Repr

/-- `callback(data)` of the MPC variant (lines 124-176), given the sampling
    time `ts` already computed from the timestamps.  After `getLateralRanges`
    succeeds, line 140 executes `R = ranges_list(0)`, which calls the list
    object and raises `TypeError`, so control never reaches the heading and
    offset computation or `pub.publish`. -/
def callback (range_min range_max : ℚ) (ranges : List PyFloat) (ts : ℚ) :
    Except PyErr pose :=
  match getLateralRanges range_min range_max ranges with
  | .error e => .error e
  | .ok _ranges_list => .error .typeError

/-- One full node step (lines 124-176 including the timestamp bookkeeping):
    from the stored `timestamp_last_message` and the current time, compute the
    sampling time `ts` (0.01 on the first scan), run the callback body, and
    store the new timestamp. -/
def nodeStep (range_min range_max : ℚ) (ranges : List PyFloat)
    (timestamp_last_message : Option ℚ) (now : ℚ) :
    Except PyErr pose × Option ℚ :=
  let ts : ℚ :=
    match timestamp_last_message with
    | none => 1 / 100
    | some t => now - t
  (callback range_min range_max ranges ts, some now)

end MPC

/-- The exact rational value of the binary64 constant `numpy.pi`. -/
def NP_PI : ℚ := 884279719003555 / 281474976710656

lemma NP_PI_pos : 0 < NP_PI := by norm_num [NP_PI]

/-- The first overflow loop (MPC lines 157-158):
    `while phi > np.pi: phi -= 2*np.pi`. -/
def normStepDown (phi : ℚ) : ℚ :=
  if h : NP_PI < phi then normStepDown (phi - 2 * NP_PI) else phi
termination_by (⌈(phi - NP_PI) / (2 * NP_PI)⌉).toNat
decreasing_by
  have hp : 0 < NP_PI := NP_PI_pos
  have h2p : 0 < 2 * NP_PI := by linarith
  have he : (phi - 2 * NP_PI - NP_PI) / (2 * NP_PI)
      = (phi - NP_PI) / (2 * NP_PI) - 1 := by
    field_simp
    ring
  have hc : 0 < ⌈(phi - NP_PI) / (2 * NP_PI)⌉ :=
    Int.ceil_pos.mpr (div_pos (by linarith) h2p)
  have h1 : ⌈(phi - NP_PI) / (2 * NP_PI) - 1⌉
      = ⌈(phi - NP_PI) / (2 * NP_PI)⌉ - 1 := by
    rw [show (1 : ℚ) = ((1 : ℤ) : ℚ) by norm_num, Int.ceil_sub_int]
  rw [he, h1]
  omega

/-- The second overflow loop (MPC lines 159-160):
    `while phi < -np.pi: phi += 2*np.pi`. -/
def normStepUp (phi : ℚ) : ℚ :=
  if h : phi < -NP_PI then normStepUp (phi + 2 * NP_PI) else phi
termination_by (⌈(-NP_PI - phi) / (2 * NP_PI)⌉).toNat
decreasing_by
  have hp : 0 < NP_PI := NP_PI_pos
  have h2p : 0 < 2 * NP_PI := by linarith
  have he : (-NP_PI - (phi + 2 * NP_PI)) / (2 * NP_PI)
      = (-NP_PI - phi) / (2 * NP_PI) - 1 := by
    field_simp
    ring
  have hc : 0 < ⌈(-NP_PI - phi) / (2 * NP_PI)⌉ :=
    Int.ceil_pos.mpr (div_pos (by linarith) h2p)
  have h1 : ⌈(-NP_PI - phi) / (2 * NP_PI) - 1⌉
      = ⌈(-NP_PI - phi) / (2 * NP_PI)⌉ - 1 := by
    rw [show (1 : ℚ) = ((1 : ℤ) : ℚ) by norm_num, Int.ceil_sub_int]
  rw [he, h1]
  omega

/-- The complete angular-overflow normalization: first loop, then second. -/
def angleNormalize (phi : ℚ) : ℚ := normStepUp (normStepDown phi)

namespace PID

/-- The value transformation applied by the PID variant's `getRange`
    (`centerline_pid/src/dist_finder_lidar.py`, lines 26-38): identical to the
    MPC variant except that the second test omits `math.isinf`. -/
def sanitize (range_min range_max : ℚ) (distance : PyFloat) : PyFloat :=
  let d1 : PyFloat :=
    if distance.isNanB || distance.lt (.real range_min) then .real 0 else distance
  if (PyFloat.real range_max).lt d1 then .real 50 else d1

/-- `getRange(data, beam_index)` of the PID variant. -/
def getRange (range_min range_max : ℚ) (ranges : List PyFloat) (beam_index : ℤ) :
    Except PyErr PyFloat :=
  match pyGetItem ranges beam_index with
  | .error e => .error e
  | .ok distance => .ok (sanitize range_min range_max distance)

/-- `getLateralRanges(data)` of the PID variant (lines 49-93, with the
    missing line continuations of the checked-in file repaired): average the
    sanitized ranges over the five beams around indices 180, 540 and 900 and
    collect them in the local list `distance`.  The function has no `return`
    statement, so Python returns `None`, modelled by `Option.none`. -/
def getLateralRanges (range_min range_max : ℚ) (ranges : List PyFloat) :
    Except PyErr (Option (List PyFloat)) := do
  let a0 ← getRange range_min range_max ranges 178
  let a1 ← getRange range_min range_max ranges 179
  let a2 ← getRange range_min range_max ranges 180
  let a3 ← getRange range_min range_max ranges 181
  let a4 ← getRange range_min range_max ranges 182
  let range_right := ((((a0.add a1).add a2).add a3).add a4).divQ 5
  let b0 ← getRange range_min range_max ranges 538
  let b1 ← getRange range_min range_max ranges 539
  let b2 ← getRange range_min range_max ranges 540
  let b3 ← getRange range_min range_max ranges 541
  let b4 ← getRange range_min range_max ranges 542
  let range_face := ((((b0.add b1).add b2).add b3).add b4).divQ 5
  let c0 ← getRange range_min range_max ranges 898
  let c1 ← getRange range_min range_max ranges 899
  let c2 ← getRange range_min range_max ranges 900
  let c3 ← getRange range_min range_max ranges 901
  let c4 ← getRange range_min range_max ranges 902
  let range_left := ((((c0.add c1).add c2).add c3).add c4).divQ 5
  let _distance : List PyFloat := [range_right, range_face, range_left]
  pure none

/-- Line 115-116 of the PID variant: an odd window length is rounded up to
    the next even number. -/
def effLength (length0 : ℤ) : ℤ :=
  if length0 % 2 = 1 then length0 + 1 else length0

/-- The loop body of `getRangeSequenceSign` (lines 118-121): for each window
    offset `i`, append `getRange(beam_index + i + 1) - getRange(beam_index + i)`
    to the list `distances`. -/
def buildDiffs (range_min range_max : ℚ) (ranges : List PyFloat)
    (beam_index : ℤ) : List ℤ → Except PyErr (List PyFloat)
  | [] => .ok []
  | i :: rest => do
      let a ← getRange range_min range_max ranges (beam_index + i + 1)
      let b ← getRange range_min range_max ranges (beam_index + i)
      let tl ← buildDiffs range_min range_max ranges beam_index rest
      pure (a.sub b :: tl)

/-- `getRangeSequenceSign(data, beam_index, length)` (lines 113-123): round
    the length up to even, build the list of consecutive differences over
    `range(-length/2, length/2 + 1)` (Python 2 floor division), then execute
    `return sum(distance)` - the name `distance` is unbound in this scope
    (the list is called `distances`), so the line raises `NameError`. -/
def getRangeSequenceSign (range_min range_max : ℚ) (ranges : List PyFloat)
    (beam_index length0 : ℤ) : Except PyErr PyFloat :=
  match buildDiffs range_min range_max ranges beam_index
      (pyRange (Int.fdiv (-(effLength length0)) 2)
               (Int.fdiv (effLength length0) 2 + 1)) with
  | .error e => .error e
  | .ok _distances => .error .nameError

/-- The `input_pid` message published by the PID variant. -/
structure input_pid where
  pid_error : ℚ
  pid_vel : ℚ
deriving DecidableEq, Repr

/-- `callback(data)` of the PID variant (lines 130-194).  `getLateralRanges`
    returns `None`, and line 142 executes `R = ranges_list(0)`, calling
    `None`, which raises `TypeError`; control never reaches the error formula
    or `pub.publish`. -/
def callback (range_min range_max : ℚ) (ranges : List PyFloat) :
    Except PyErr input_pid :=
  match getLateralRanges range_min range_max ranges with
  | .error e => .error e
  | .ok _ranges_list => .error .typeError

end PID

lemma isOkE_ok {α : Type} (a : α) : isOkE (Except.ok a) = true := rfl

lemma isOkE_error {α : Type} (e : PyErr) :
    isOkE (Except.error e : Except PyErr α) = false := rfl

lemma lt_real_real (a b : ℚ) : PyFloat.lt (.real a) (.real b) = decide (a < b) := rfl

lemma lt_inf_left (x : PyFloat) : PyFloat.lt .inf x = false := by cases x <;> rfl

lemma lt_real_inf (a : ℚ) : PyFloat.lt (.real a) .inf = true := rfl

lemma lt_ninf_real (a : ℚ) : PyFloat.lt .ninf (.real a) = true := rfl

lemma lt_real_ninf (a : ℚ) : PyFloat.lt (.real a) .ninf = false := rfl

lemma lt_nan_left (x : PyFloat) : PyFloat.lt .nan x = false := by cases x <;> rfl

lemma lt_real_nan (a : ℚ) : PyFloat.lt (.real a) .nan = false := rfl

lemma sanitize_agree (range_min range_max : ℚ) (d : PyFloat) :
    MPC.sanitize range_min range_max d = PID.sanitize range_min range_max d := by
  cases d with
  | nan =>
      simp [MPC.sanitize, PID.sanitize, PyFloat.isNanB, PyFloat.isInfB,
            lt_real_real, lt_nan_left]
  | inf =>
      simp [MPC.sanitize, PID.sanitize, PyFloat.isNanB, PyFloat.isInfB,
            lt_inf_left, lt_real_inf]
  | ninf =>
      simp [MPC.sanitize, PID.sanitize, PyFloat.isNanB, PyFloat.isInfB,
            lt_ninf_real, lt_real_real]
  | real a =>
      by_cases hm : a < range_min <;>
        simp [MPC.sanitize, PID.sanitize, PyFloat.isNanB, PyFloat.isInfB,
              lt_real_real, hm]

/-- C9: for every raw beam value and the same configured `range_min` and
    `range_max`, the MPC variant's `getRange` and the PID variant's `getRange`
    return the same sanitized result: the PID variant omits the explicit
    infinity test, but positive infinity satisfies the above-`range_max`
    comparison and negative infinity satisfies the below-`range_min`
    comparison, so the two functions agree everywhere. -/
theorem getRange_variants_agree (range_min range_max : ℚ)
    (ranges : List PyFloat) (beam_index : ℤ) :
    MPC.getRange range_min range_max ranges beam_index
      = PID.getRange range_min range_max ranges beam_index := by
  unfold MPC.getRange PID.getRange
  cases pyGetItem ranges beam_index with
  | error e => rfl
  | ok d => exact congrArg Except.ok (sanitize_agree range_min range_max d)

/-- C1: the claim describes the heading and offset published by the MPC
    callback, but the callback raises `TypeError` on every scan (line 140
    calls the list: `R = ranges_list(0)`), before the heading formula is
    reached, so no estimate is ever published. -/
theorem mpc_callback_never_publishes (range_min range_max : ℚ)
    (ranges : List PyFloat) (ts : ℚ) :
    isOkE (MPC.callback range_min range_max ranges ts) = false := by
  unfold MPC.callback
  split <;> rfl

/-- C2: the claim describes the steering error published by the PID callback,
    but `getLateralRanges` has no return statement (so `ranges_list` is
    `None`) and line 142 calls it (`R = ranges_list(0)`), raising `TypeError`
    on every scan, so no error message is ever published. -/
theorem pid_callback_never_publishes (range_min range_max : ℚ)
    (ranges : List PyFloat) :
    isOkE (PID.callback range_min range_max ranges) = false := by
  unfold PID.callback
  split <;> rfl

/-- C3: the claim states the contract of `get_minimum_range`, but the
    function can never return the (value, index) pair: after the index
    lookup it executes `ret_list.append(min_range, min_index)`, which raises
    `TypeError` (`list.append` takes one argument), and the function has no
    `return` statement, so every call ends in an exception. -/
theorem get_minimum_range_never_returns (ranges_scan : List PyFloat) :
    isOkE (MPC.get_minimum_range ranges_scan) = false := by
  unfold MPC.get_minimum_range
  split <;> rfl

/-- C6: the claim states the contract of `getRangeSequenceSign`, but line 123
    executes `return sum(distance)` where the name `distance` is unbound (the
    list built by the loop is called `distances`), so every call that survives
    the loop raises `NameError` and the function never returns the sum of
    differences (the checked-in file moreover fails to parse: line 120 lacks
    the colon of the `for` statement). -/
theorem getRangeSequenceSign_never_returns (range_min range_max : ℚ)
    (ranges : List PyFloat) (beam_index length0 : ℤ) :
    isOkE (PID.getRangeSequenceSign range_min range_max ranges beam_index length0)
      = false := by
  unfold PID.getRangeSequenceSign
  split <;> rfl

/-- C8: the full pipeline is a deterministic function of the scan and the
    stored last-scan timestamp: two runs of the MPC node step on the same
    scan and stored timestamp produce the same callback outcome even at
    different wall-clock times (the callback outcome does not depend on the
    sampling time, because the `TypeError` of line 140 precedes every use of
    it), and the PID callback is a pure function of the scan. -/
theorem pipeline_deterministic (range_min range_max : ℚ)
    (ranges : List PyFloat) (st : Option ℚ) (now1 now2 : ℚ) :
    (MPC.nodeStep range_min range_max ranges st now1).1
        = (MPC.nodeStep range_min range_max ranges st now2).1
      ∧ PID.callback range_min range_max ranges
        = PID.callback range_min range_max ranges := by
  refine ⟨?_, rfl⟩
  unfold MPC.nodeStep MPC.callback
  rfl

/-- C4 counterexample: at configured `range_min = 1`, `range_max = 10`, the
    raw beam value negative infinity is an infinite value, yet `getRange`
    returns `0`, not the substitute `50` the claim requires for infinite
    values (the below-`range_min` branch fires first and replaces it by `0`,
    after which the infinity test sees a finite value). -/
theorem getRange_neg_infinity_counterexample :
    MPC.getRange 1 10 [PyFloat.ninf] 0 = .ok (.real 0)
      ∧ MPC.getRange 1 10 [PyFloat.ninf] 0 ≠ .ok (.real 50) := by
  constructor
  · decide
  · decide

/-- C4 amended: for a configuration with `0 ≤ range_min ≤ range_max ≤ 50`,
    the sanitization applied by `getRange` to the raw beam value returns `0`
    for nan, for negative infinity and for values below `range_min`; `50` for
    positive infinity and for values above `range_max`; the value unchanged
    otherwise; and the result is always a finite value in `[0, 50]`. -/
theorem getRange_sanitize_classified (range_min range_max : ℚ) (v : PyFloat)
    (h0 : 0 ≤ range_min) (h1 : range_min ≤ range_max) (h2 : range_max ≤ 50) :
    MPC.sanitize range_min range_max v =
      (match v with
       | .nan => .real 0
       | .ninf => .real 0
       | .inf => .real 50
       | .real q =>
           if q < range_min then .real 0
           else if range_max < q then .real 50 else .real q)
      ∧ ∃ q : ℚ, MPC.sanitize range_min range_max v = .real q ∧ 0 ≤ q ∧ q ≤ 50 := by
  have hmax0 : ¬ (range_max < 0) := by linarith
  have hcls : MPC.sanitize range_min range_max v =
      (match v with
       | .nan => .real 0
       | .ninf => .real 0
       | .inf => .real 50
       | .real q =>
           if q < range_min then .real 0
           else if range_max < q then .real 50 else .real q) := by
    cases v with
    | nan =>
        simp [MPC.sanitize, PyFloat.isNanB, PyFloat.isInfB, lt_real_real,
              lt_nan_left, hmax0]
    | inf =>
        simp [MPC.sanitize, PyFloat.isNanB, PyFloat.isInfB, lt_inf_left]
    | ninf =>
        simp [MPC.sanitize, PyFloat.isNanB, PyFloat.isInfB, lt_ninf_real,
              lt_real_real, hmax0]
    | real q =>
        by_cases hq : q < range_min
        · simp [MPC.sanitize, PyFloat.isNanB, PyFloat.isInfB, lt_real_real,
                hq, hmax0]
        · by_cases hq2 : range_max < q <;>
            simp [MPC.sanitize, PyFloat.isNanB, PyFloat.isInfB, lt_real_real,
                  hq, hq2]
  refine ⟨hcls, ?_⟩
  rw [hcls]
  cases v with
  | nan => exact ⟨0, rfl, le_refl 0, by norm_num⟩
  | ninf => exact ⟨0, rfl, le_refl 0, by norm_num⟩
  | inf => exact ⟨50, rfl, by norm_num, le_refl 50⟩
  | real q =>
      by_cases hq : q < range_min
      · refine ⟨0, ?_, le_refl 0, by norm_num⟩
        simp [hq]
      · by_cases hq2 : range_max < q
        · refine ⟨50, ?_, by norm_num, le_refl 50⟩
          simp [hq, hq2]
        · refine ⟨q, ?_, by linarith, by linarith⟩
          simp [hq, hq2]

/-- Witness for the amended C4 theorem at the configuration
    `range_min = 1`, `range_max = 10` and the in-range raw value `5`. -/
theorem getRange_sanitize_classified_witness :
    MPC.sanitize 1 10 (.real 5) =
      (match (PyFloat.real 5 : PyFloat) with
       | .nan => .real 0
       | .ninf => .real 0
       | .inf => .real 50
       | .real q =>
           if q < 1 then .real 0
           else if 10 < q then .real 50 else .real q)
      ∧ ∃ q : ℚ, MPC.sanitize 1 10 (.real 5) = .real q ∧ 0 ≤ q ∧ q ≤ 50 :=
  getRange_sanitize_classified 1 10 (.real 5) (by norm_num) (by norm_num)
    (by norm_num)

lemma pyGetItem_ok_iff (l : List PyFloat) (i : ℤ) :
    isOkE (pyGetItem l i) = true ↔ -(l.length : ℤ) ≤ i ∧ i < (l.length : ℤ) := by
  unfold pyGetItem
  split_ifs <;> simp [isOkE] <;> omega

lemma mpc_getRange_ok_iff (range_min range_max : ℚ) (l : List PyFloat) (i : ℤ) :
    isOkE (MPC.getRange range_min range_max l i) = true
      ↔ -(l.length : ℤ) ≤ i ∧ i < (l.length : ℤ) := by
  rw [← pyGetItem_ok_iff]
  unfold MPC.getRange
  cases hpg : pyGetItem l i <;> simp [hpg, isOkE]

lemma sumRanges_ok (range_min range_max : ℚ) (l : List PyFloat) :
    ∀ (idxs : List ℤ) (acc : PyFloat),
      isOkE (MPC.sumRanges range_min range_max l idxs acc)
        = idxs.all (fun i => isOkE (MPC.getRange range_min range_max l i)) := by
  intro idxs
  induction idxs with
  | nil => intro acc; rfl
  | cons i rest ih =>
      intro acc
      simp only [MPC.sumRanges, List.all_cons]
      cases hg : MPC.getRange range_min range_max l i with
      | error e => simp [hg, isOkE_error]
      | ok r => simp [hg, isOkE_ok, ih]

/-- C7 amended: `getAverageRange` succeeds exactly when every index of the
    averaging window lies in `[-beam_count, beam_count)`; indices at or beyond
    `beam_count` (and below `-beam_count`) raise `IndexError` with no estimate
    for that scan - on an empty scan every index access fails - but window
    indices in `[-beam_count, -1]` do not fail: Python indexing silently wraps
    them to the far end of the array. -/
theorem getAverageRange_ok_iff_window_in_bounds (range_min range_max : ℚ)
    (l : List PyFloat) (beam_index num_aux_scans_halfed : ℤ) :
    isOkE (MPC.getAverageRange range_min range_max l beam_index
        num_aux_scans_halfed) = true
      ↔ ∀ i ∈ pyRange (beam_index - num_aux_scans_halfed)
            (beam_index + num_aux_scans_halfed + 1),
          -(l.length : ℤ) ≤ i ∧ i < (l.length : ℤ) := by
  have hs : isOkE (MPC.getAverageRange range_min range_max l beam_index
        num_aux_scans_halfed)
      = isOkE (MPC.sumRanges range_min range_max l
          (pyRange (beam_index - num_aux_scans_halfed)
            (beam_index + num_aux_scans_halfed + 1)) (.real 0)) := by
    unfold MPC.getAverageRange
    cases hr : MPC.sumRanges range_min range_max l
        (pyRange (beam_index - num_aux_scans_halfed)
          (beam_index + num_aux_scans_halfed + 1)) (.real 0) <;>
      simp [hr, isOkE]
  rw [hs, sumRanges_ok, List.all_eq_true]
  simp only [mpc_getRange_ok_iff]

/-- C7 counterexample: on a 5-beam scan, the averaging window around beam 0
    with half-width 1 extends to index `-1`, outside `[0, beam_count - 1]`,
    yet the computation does not fail: Python wraps index `-1` to the last
    beam and `getAverageRange` returns the average `(5 + 1 + 2) / 3`. -/
theorem getAverageRange_out_of_bounds_succeeds :
    MPC.getAverageRange 0 50
        [.real 1, .real 2, .real 3, .real 4, .real 5] 0 1
      = .ok (.real (8 / 3))
      ∧ ∃ i ∈ pyRange (0 - 1) (0 + 1 + 1), i < 0 := by
  constructor
  · have h1 : MPC.getAverageRange 0 50
        [.real 1, .real 2, .real 3, .real 4, .real 5] 0 1
        = .ok (.real ((((0 + 5) + 1) + 2) / ((2 * 1 + 1 : ℤ) : ℚ))) := rfl
    rw [h1]
    norm_num
  · exact ⟨-1, by decide, by decide⟩

lemma lt_nan_right (x : PyFloat) : PyFloat.lt x .nan = false := by cases x <;> rfl

lemma lt_ninf_inf : PyFloat.lt .ninf .inf = true := rfl

lemma lt_ninf_ninf : PyFloat.lt .ninf .ninf = false := rfl

lemma lt_asymm_py (a b : PyFloat) (h : PyFloat.lt a b = true) :
    PyFloat.lt b a = false := by
  cases a <;> cases b <;>
    simp_all [lt_nan_left, lt_nan_right, lt_inf_left, lt_real_inf,
              lt_ninf_inf, lt_ninf_ninf, lt_ninf_real, lt_real_ninf,
              lt_real_real] <;>
    linarith

lemma beq_real_real (a b : ℚ) : PyFloat.beq (.real a) (.real b) = decide (a = b) := rfl

lemma beq_inf_real (a : ℚ) : PyFloat.beq .inf (.real a) = false := rfl

lemma beq_of_above_sentinel (v : PyFloat)
    (h : PyFloat.lt (.real 1000) v = true) :
    PyFloat.beq v (.real 1000) = false := by
  cases v with
  | nan => simp [lt_real_nan] at h
  | inf => exact beq_inf_real 1000
  | ninf => simp [lt_real_ninf] at h
  | real q =>
      rw [lt_real_real] at h
      rw [beq_real_real]
      simp at h ⊢
      linarith

lemma minLoop_all_above (l : List PyFloat)
    (hall : ∀ v ∈ l, PyFloat.lt (.real 1000) v = true) :
    MPC.minLoop l = .real 1000 := by
  have key : ∀ (l' : List PyFloat),
      (∀ v ∈ l', PyFloat.lt (.real 1000) v = true) →
      l'.foldl (fun min_range r => if r.lt min_range then r else min_range)
          (.real 1000) = .real 1000 := by
    intro l'
    induction l' with
    | nil => intro _; rfl
    | cons x xs ih =>
        intro hall'
        have hx : PyFloat.lt x (.real 1000) = false :=
          lt_asymm_py _ _ (hall' x (by simp))
        simp only [List.foldl_cons, hx, Bool.false_eq_true, if_false]
        exact ih (fun v hv => hall' v (by simp [hv]))
  exact key l hall

lemma pyListIndexAux_not_found (v : PyFloat) :
    ∀ (l : List PyFloat) (k : ℤ), (∀ x ∈ l, PyFloat.beq x v = false) →
      pyListIndexAux v l k = .error .valueError := by
  intro l
  induction l with
  | nil => intro k _; rfl
  | cons x xs ih =>
      intro k hall
      have hx := hall x (by simp)
      simp only [pyListIndexAux, hx, Bool.false_eq_true, if_false]
      exact ih (k + 1) (fun y hy => hall y (by simp [hy]))

/-- C10: the minimum-finding loop of `get_minimum_range` starts from the
    sentinel `1000.0` with a strict comparison, so on a non-empty scan all of
    whose ranges strictly exceed `1000.0` the loop returns the sentinel itself
    - `min(1000.0, min of the ranges) = 1000.0` - and the subsequent
    `ranges_scan.index(min_range)` lookup raises `ValueError` instead of
    producing a result for the scan's true minimum. -/
theorem min_sentinel_lookup_fails (l : List PyFloat) (hne : l ≠ [])
    (hall : ∀ v ∈ l, PyFloat.lt (.real 1000) v = true) :
    MPC.minLoop l = .real 1000
      ∧ MPC.get_minimum_range l = .error .valueError := by
  have hmin := minLoop_all_above l hall
  refine ⟨hmin, ?_⟩
  unfold MPC.get_minimum_range
  have hidx : pyListIndex l (MPC.minLoop l) = .error .valueError := by
    rw [hmin]
    unfold pyListIndex
    exact pyListIndexAux_not_found _ l 0
      (fun x hx => beq_of_above_sentinel x (hall x hx))
  rw [hidx]

/-- Witness for C10 at the one-beam scan `[1001.0]`: every range strictly
    exceeds the sentinel, the loop returns `1000.0`, and the lookup fails. -/
theorem min_sentinel_lookup_fails_witness :
    MPC.minLoop [PyFloat.real 1001] = .real 1000
      ∧ MPC.get_minimum_range [PyFloat.real 1001] = .error .valueError :=
  min_sentinel_lookup_fails [PyFloat.real 1001] (by decide)
    (by intro v hv; simp at hv; rw [hv]; decide)

lemma normStepDown_le (phi : ℚ) : normStepDown phi ≤ NP_PI := by
  induction phi using normStepDown.induct with
  | case1 phi h ih =>
      rw [normStepDown.eq_def, dif_pos h]
      exact ih
  | case2 phi h =>
      rw [normStepDown.eq_def, dif_neg h]
      exact not_lt.mp h

lemma normStepDown_mod (phi : ℚ) :
    ∃ k : ℤ, normStepDown phi = phi - 2 * NP_PI * (k : ℚ) := by
  induction phi using normStepDown.induct with
  | case1 phi h ih =>
      obtain ⟨k, hk⟩ := ih
      refine ⟨k + 1, ?_⟩
      rw [normStepDown.eq_def, dif_pos h, hk]
      push_cast
      ring
  | case2 phi h =>
      refine ⟨0, ?_⟩
      rw [normStepDown.eq_def, dif_neg h]
      push_cast
      ring

lemma normStepUp_ge (phi : ℚ) : -NP_PI ≤ normStepUp phi := by
  induction phi using normStepUp.induct with
  | case1 phi h ih =>
      rw [normStepUp.eq_def, dif_pos h]
      exact ih
  | case2 phi h =>
      rw [normStepUp.eq_def, dif_neg h]
      exact not_lt.mp h

lemma normStepUp_le (phi : ℚ) : phi ≤ NP_PI → normStepUp phi ≤ NP_PI := by
  induction phi using normStepUp.induct with
  | case1 phi h ih =>
      intro _
      rw [normStepUp.eq_def, dif_pos h]
      apply ih
      have hp := NP_PI_pos
      linarith
  | case2 phi h =>
      intro hle
      rw [normStepUp.eq_def, dif_neg h]
      exact hle

lemma normStepUp_mod (phi : ℚ) :
    ∃ k : ℤ, normStepUp phi = phi + 2 * NP_PI * (k : ℚ) := by
  induction phi using normStepUp.induct with
  | case1 phi h ih =>
      obtain ⟨k, hk⟩ := ih
      refine ⟨k + 1, ?_⟩
      rw [normStepUp.eq_def, dif_pos h, hk]
      push_cast
      ring
  | case2 phi h =>
      refine ⟨0, ?_⟩
      rw [normStepUp.eq_def, dif_neg h]
      push_cast
      ring

/-- C5 amended: the angular-overflow loop pair terminates on every rational
    input (the recursions above are well-founded) and returns a value in the
    closed interval `[-np.pi, np.pi]` that is congruent to the input modulo
    `2*np.pi`; the claim's half-open interval `(-np.pi, np.pi]` is too strong,
    since the left endpoint is reachable. -/
theorem angle_normalize_range_mod (phi : ℚ) :
    -NP_PI ≤ angleNormalize phi ∧ angleNormalize phi ≤ NP_PI
      ∧ ∃ k : ℤ, angleNormalize phi = phi + 2 * NP_PI * (k : ℚ) := by
  unfold angleNormalize
  refine ⟨normStepUp_ge _, normStepUp_le _ (normStepDown_le phi), ?_⟩
  obtain ⟨k1, h1⟩ := normStepDown_mod phi
  obtain ⟨k2, h2⟩ := normStepUp_mod (normStepDown phi)
  refine ⟨k2 - k1, ?_⟩
  rw [h2, h1]
  push_cast
  ring

/-- C5 counterexample: at the input `-np.pi` both loops leave the angle
    unchanged, so the result is `-np.pi` itself, which is congruent to the
    input but lies outside the claimed half-open interval `(-np.pi, np.pi]`. -/
theorem angle_normalize_at_neg_pi :
    angleNormalize (-NP_PI) = -NP_PI
      ∧ ¬ (-NP_PI < angleNormalize (-NP_PI)) := by
  have hd : normStepDown (-NP_PI) = -NP_PI := by
    rw [normStepDown.eq_def,
        dif_neg (by intro hcon; have hp := NP_PI_pos; linarith)]
  have hu : normStepUp (-NP_PI) = -NP_PI := by
    rw [normStepUp.eq_def, dif_neg (lt_irrefl _)]
  constructor
  · unfold angleNormalize
    rw [hd, hu]
  · unfold angleNormalize
    rw [hd, hu]
    exact lt_irrefl _
